import Mathlib

/-!
Verification of the identity-reconciliation service in `src/main.py`
(Bitespeed backend task).

The whole service is the single FastAPI handler `identify`.  We embed it
shallowly: the `contacts` table becomes a `List Contact` in insertion
(ascending primary-key) order, timestamps become `Nat`, the SQLAlchemy
session becomes an explicit committed/pending pair, and a possible
`session.commit()` failure is modelled by a boolean `commitOk` parameter.
-/

/-- One row of the `contacts` table (class `Contact`, main.py lines 24-33). -/
structure Contact where
  id : Nat
  email : Option String
  phone_number : Option String
  linked_id : Option Nat
  link_precedence : String
  created_at : Nat
  updated_at : Nat
  deleted_at : Option Nat
deriving Repr, DecidableEq

/-- The `contacts` table, rows in insertion (ascending `id`) order. -/
abbrev Store := List Contact

/-- The SQL filter of main.py lines 59-64:
`Contact.email == contact_in.email OR Contact.phone_number == contact_in.phone_number`.
SQLAlchemy compiles `column == None` to `column IS NULL`, so both comparisons
are exactly `Option` equality. -/
def matchesQuery (e p : Option String) (c : Contact) : Bool :=
  c.email == e || c.phone_number == p

/-- `existing_contacts` (main.py line 59): every row matching the filter,
in table order. -/
def existingContacts (s : Store) (e p : Option String) : List Contact :=
  s.filter (matchesQuery e p)

/-- The autoincrement primary key the database assigns to an inserted row. -/
def nextId (s : Store) : Nat :=
  s.foldr (fun c m => max c.id m) 0 + 1

/-- Python `min(existing_contacts, key=lambda x: x.created_at)` (line 86):
a left-to-right scan keeping the first element with the smallest key. -/
def minByCreatedAt (c : Contact) : List Contact → Contact
  | [] => c
  | d :: l => if d.created_at < c.created_at then minByCreatedAt d l else minByCreatedAt c l

/-- The duplicate check of main.py lines 90-92: some matched row equals the
submission on both fields (Python `==`, so `None` only equals `None`). -/
def isRepeat (e p : Option String) (l : List Contact) : Bool :=
  l.any (fun c => c.email == e && c.phone_number == p)

/-- Duplicate removal keeping the first occurrence, skipping anything already
in `seen`. -/
def dedupSeen (seen : List String) : List String → List String
  | [] => []
  | x :: xs => if x ∈ seen then dedupSeen seen xs else x :: dedupSeen (x :: seen) xs

/-- `list(set(...))` of main.py lines 107-108.  A Python set iterates in an
unspecified (hash-dependent) order; we model it deterministically as
duplicate removal keeping the first occurrence. -/
def dedupKeepFirst (l : List String) : List String :=
  dedupSeen [] l

/-- The response object of main.py lines 76-82 and 104-110. -/
structure ClusterView where
  primaryContactId : Nat
  emails : List String
  phoneNumbers : List String
  secondaryContactIds : List Nat
deriving Repr, DecidableEq

/-- The two failure modes the caller can see: the pydantic validation error
(main.py lines 42-52) and the HTTP 500 of the exception handler (line 116). -/
inductive ApiError where
  | validation (detail : String)
  | internal (detail : String)
deriving Repr, DecidableEq

/-- Response assembly of main.py lines 104-110 (also reused, specialised,
by the no-match branch at lines 76-82). -/
def mkView (primary : Contact) (secondaries : List Contact) : ClusterView :=
  { primaryContactId := primary.id
    emails := dedupKeepFirst ((primary :: secondaries).filterMap (fun c => c.email))
    phoneNumbers := dedupKeepFirst ((primary :: secondaries).filterMap (fun c => c.phone_number))
    secondaryContactIds := secondaries.map (fun c => c.id) }

/-- A SQLAlchemy session: rows already committed to the database plus rows
added but not yet committed.  `autoflush=False`, so queries read only
committed rows (and every query in `identify` runs before any add anyway). -/
structure Session where
  committed : Store
  pending : List Contact
deriving Repr, DecidableEq

/-- `session.add(c)` (main.py lines 73, 99). -/
def Session.add (sess : Session) (c : Contact) : Session :=
  { sess with pending := sess.pending ++ [c] }

/-- `session.commit()` (main.py lines 74, 100): atomically appends the pending
rows, or fails (a store error), applying nothing and raising with the
session's committed state intact. -/
def Session.commit (sess : Session) (ok : Bool) : Except Session Session :=
  if ok then .ok ⟨sess.committed ++ sess.pending, []⟩ else .error sess

/-- `session.rollback()` (main.py line 114): discards the pending rows. -/
def Session.rollback (sess : Session) : Session :=
  ⟨sess.committed, []⟩

/-- The body of the `try:` block of `identify` (main.py lines 57-111), after
validation.  `now` is `datetime.utcnow()` for this request; `commitOk` is
whether `session.commit()` succeeds.  A raised store error propagates as
`Except.error` carrying the session to the handler. -/
def identifyBody (sess : Session) (now : Nat) (e p : Option String) (commitOk : Bool) :
    Except Session (Session × ClusterView) := do
  let existing := existingContacts sess.committed e p
  match existing with
  | [] =>
    let c : Contact := ⟨nextId sess.committed, e, p, none, "primary", now, now, none⟩
    let sess ← (sess.add c).commit commitOk
    pure (sess, ⟨c.id, e.toList, p.toList, []⟩)
  | h :: t =>
    let primary := minByCreatedAt h t
    let secondaries := existing.filter (fun c => c.id ≠ primary.id)
    if isRepeat e p existing then
      pure (sess, mkView primary secondaries)
    else
      let c : Contact := ⟨nextId sess.committed, e, p, some primary.id, "secondary", now, now, none⟩
      let sess ← (sess.add c).commit commitOk
      pure (sess, mkView primary (secondaries ++ [c]))

/-- The handler `identify` with its `try/except` (main.py lines 54-118): on
any store error it rolls back and answers HTTP 500 with the fixed detail
string "Internal server error"; the underlying cause goes only to the log. -/
def identifyF (s : Store) (now : Nat) (e p : Option String) (commitOk : Bool) :
    Store × Except ApiError ClusterView :=
  match identifyBody ⟨s, []⟩ now e p commitOk with
  | .ok (sess, v) => (sess.committed, .ok v)
  | .error sess => (sess.rollback.committed, .error (.internal "Internal server error"))

/-- The full POST /identify endpoint: pydantic validation
(`check_email_or_phone_number`, main.py lines 42-52) runs before the handler
and before any database session exists; then the handler. -/
def identifyPost (s : Store) (now : Nat) (e p : Option String) (commitOk : Bool) :
    Store × Except ApiError ClusterView :=
  if e = none ∧ p = none then
    (s, .error (.validation "At least one of email or phone_number must be provided."))
  else
    identifyF s now e p commitOk

/-! ### Reduction lemmas: the four execution paths of the handler -/

theorem identifyF_noMatch (s : Store) (now : Nat) (e p : Option String)
    (hm : existingContacts s e p = []) :
    identifyF s now e p true =
      (s ++ [⟨nextId s, e, p, none, "primary", now, now, none⟩],
       .ok ⟨nextId s, e.toList, p.toList, []⟩) := by
  unfold identifyF identifyBody
  simp [hm, Session.add, Session.commit, pure, Except.pure, Bind.bind, Except.bind]

theorem identifyF_repeat (s : Store) (now : Nat) (e p : Option String) (ok : Bool)
    (h : Contact) (t : List Contact)
    (hm : existingContacts s e p = h :: t) (hr : isRepeat e p (h :: t) = true) :
    identifyF s now e p ok =
      (s, .ok (mkView (minByCreatedAt h t)
        ((h :: t).filter (fun c => c.id ≠ (minByCreatedAt h t).id)))) := by
  unfold identifyF identifyBody
  simp [hm, hr, pure, Except.pure, Bind.bind, Except.bind]

theorem identifyF_create (s : Store) (now : Nat) (e p : Option String)
    (h : Contact) (t : List Contact)
    (hm : existingContacts s e p = h :: t) (hr : isRepeat e p (h :: t) = false) :
    identifyF s now e p true =
      (s ++ [⟨nextId s, e, p, some (minByCreatedAt h t).id, "secondary", now, now, none⟩],
       .ok (mkView (minByCreatedAt h t)
        ((h :: t).filter (fun c => c.id ≠ (minByCreatedAt h t).id) ++
          [⟨nextId s, e, p, some (minByCreatedAt h t).id, "secondary", now, now, none⟩]))) := by
  unfold identifyF identifyBody
  simp [hm, hr, Session.add, Session.commit, pure, Except.pure, Bind.bind, Except.bind]

theorem identifyF_commitFail (s : Store) (now : Nat) (e p : Option String)
    (hw : existingContacts s e p = [] ∨ isRepeat e p (existingContacts s e p) = false) :
    identifyF s now e p false =
      (s, .error (.internal "Internal server error")) := by
  unfold identifyF identifyBody
  rcases hw with hm | hr
  · simp [hm, Session.add, Session.commit, Session.rollback, pure, Except.pure, Bind.bind, Except.bind]
  · cases hm : existingContacts s e p with
    | nil => simp [hm, Session.add, Session.commit, Session.rollback, pure, Except.pure, Bind.bind, Except.bind]
    | cons h t =>
      rw [hm] at hr
      simp [hm, hr, Session.add, Session.commit, Session.rollback, pure, Except.pure, Bind.bind, Except.bind]

/-! ### Facts about ids, the minimum scan, and deduplication -/

theorem id_le_foldMax (c : Contact) (s : Store) (hc : c ∈ s) :
    c.id ≤ s.foldr (fun d m => max d.id m) 0 := by
  induction s with
  | nil => cases hc
  | cons d l ih =>
    rcases List.mem_cons.mp hc with h | h
    · subst h; exact le_max_left _ _
    · exact le_trans (ih h) (le_max_right _ _)

theorem id_lt_nextId (c : Contact) (s : Store) (hc : c ∈ s) : c.id < nextId s :=
  Nat.lt_succ_of_le (id_le_foldMax c s hc)

theorem minByCreatedAt_mem (c : Contact) (l : List Contact) :
    minByCreatedAt c l ∈ c :: l := by
  induction l generalizing c with
  | nil => simp [minByCreatedAt]
  | cons d t ih =>
    rw [minByCreatedAt]
    split
    · have := ih d
      simp only [List.mem_cons] at this ⊢
      tauto
    · have := ih c
      simp only [List.mem_cons] at this ⊢
      tauto

theorem minByCreatedAt_le (c : Contact) (l : List Contact) :
    ∀ d ∈ c :: l, (minByCreatedAt c l).created_at ≤ d.created_at := by
  induction l generalizing c with
  | nil =>
    intro d hd
    simp only [List.mem_singleton] at hd
    subst hd; exact le_refl _
  | cons x t ih =>
    intro d hd
    rw [minByCreatedAt]
    rcases List.mem_cons.mp hd with h | h
    · subst h
      split
      · exact le_trans (ih x x (List.mem_cons_self _ _)) (le_of_lt (by assumption))
      · exact ih d d (List.mem_cons_self _ _)
    · rcases List.mem_cons.mp h with h2 | h2
      · subst h2
        split
        · exact ih d d (List.mem_cons_self _ _)
        · exact le_trans (ih c c (List.mem_cons_self _ _)) (le_of_not_lt (by assumption))
      · split
        · exact ih x d (List.mem_cons_of_mem _ h2)
        · exact ih c d (List.mem_cons_of_mem _ h2)

theorem minByCreatedAt_append (c : Contact) (l : List Contact) (x : Contact) :
    minByCreatedAt c (l ++ [x]) =
      if x.created_at < (minByCreatedAt c l).created_at then x
      else minByCreatedAt c l := by
  induction l generalizing c with
  | nil => simp [minByCreatedAt]
  | cons d t ih =>
    by_cases hdc : d.created_at < c.created_at <;>
      simp [minByCreatedAt, hdc, ih]

theorem mem_dedupSeen (l : List String) :
    ∀ (seen : List String) (x : String), x ∈ dedupSeen seen l ↔ x ∈ l ∧ x ∉ seen := by
  induction l with
  | nil => intro seen x; simp [dedupSeen]
  | cons y ys ih =>
    intro seen x
    rw [dedupSeen]
    split
    · rw [ih]
      constructor
      · rintro ⟨hx, hns⟩; exact ⟨List.mem_cons_of_mem _ hx, hns⟩
      · rintro ⟨hx, hns⟩
        rcases List.mem_cons.mp hx with h | h
        · subst h; exact absurd (by assumption) hns
        · exact ⟨h, hns⟩
    · simp only [List.mem_cons, ih]
      constructor
      · rintro (h | ⟨hx, hns⟩)
        · subst h; exact ⟨Or.inl rfl, by assumption⟩
        · push_neg at hns
          exact ⟨Or.inr hx, hns.2⟩
      · rintro ⟨h | h, hns⟩
        · exact Or.inl h
        · by_cases hxy : x = y
          · exact Or.inl hxy
          · exact Or.inr ⟨h, by push_neg; exact ⟨hxy, hns⟩⟩

theorem dedupSeen_nodup (l : List String) : ∀ seen : List String, (dedupSeen seen l).Nodup := by
  induction l with
  | nil => intro seen; simp [dedupSeen]
  | cons y ys ih =>
    intro seen
    rw [dedupSeen]
    split
    · exact ih seen
    · refine List.nodup_cons.mpr ⟨?_, ih (y :: seen)⟩
      rw [mem_dedupSeen]
      rintro ⟨-, hns⟩
      exact hns (List.mem_cons_self _ _)

theorem mem_dedupKeepFirst (l : List String) (x : String) :
    x ∈ dedupKeepFirst l ↔ x ∈ l := by
  rw [dedupKeepFirst, mem_dedupSeen]
  simp

theorem dedupKeepFirst_nodup (l : List String) : (dedupKeepFirst l).Nodup :=
  dedupSeen_nodup l []

theorem dedupKeepFirst_cons (x : String) (l : List String) :
    dedupKeepFirst (x :: l) = x :: dedupSeen [x] l := by
  rw [dedupKeepFirst, dedupSeen]
  simp

/-- A row carrying exactly the submitted pair always matches the query for
that pair. -/
theorem matchesQuery_mk (e p : Option String) (i : Nat) (li : Option Nat)
    (lp : String) (ca ua : Nat) (da : Option Nat) :
    matchesQuery e p ⟨i, e, p, li, lp, ca, ua, da⟩ = true := by
  simp [matchesQuery]

/-- A row carrying exactly the submitted pair makes any list containing it a
repeat for that pair. -/
theorem isRepeat_append_mk (e p : Option String) (l : List Contact) (i : Nat)
    (li : Option Nat) (lp : String) (ca ua : Nat) (da : Option Nat) :
    isRepeat e p (l ++ [⟨i, e, p, li, lp, ca, ua, da⟩]) = true := by
  simp [isRepeat]

/-! ### Clusters (spec §3): transitive connection by shared email or phone -/

/-- Two rows share a non-null email or a non-null phone (spec §3, invariant 3). -/
def touches (c d : Contact) : Bool :=
  (c.email.isSome && c.email == d.email) ||
    (c.phone_number.isSome && c.phone_number == d.phone_number)

/-- Rows of `s` connected directly or through intermediate rows of `s`:
the spec's "same cluster". -/
def sameCluster (s : Store) : Contact → Contact → Prop :=
  Relation.ReflTransGen (fun a b => a ∈ s ∧ b ∈ s ∧ touches a b = true)

/-- Spec §3 invariants 2 and 5: connected rows never carry two distinct
primaries. -/
def onePrimaryPerCluster (s : Store) : Prop :=
  ∀ c ∈ s, ∀ d ∈ s, sameCluster s c d →
    c.link_precedence = "primary" → d.link_precedence = "primary" → c = d

/-- Modelled from the spec's glossary entry "Exact-pair match": "an existing
contact whose non-empty submitted fields all equal the submission's
corresponding fields".  This is the matching rule the spec prescribes, to be
compared with the code's rule `isRepeat`. -/
def specExactPair (e p : Option String) (c : Contact) : Bool :=
  (e.all fun x => c.email == some x) && (p.all fun x => c.phone_number == some x)

/-! ### Concrete request traces -/

/-- First request: (a@x.com, 111) against an empty database. -/
def storeA : Store := (identifyPost [] 1 (some "a@x.com") (some "111") true).1

/-- Second request: (b@x.com, 222), disjoint from the first. -/
def storeAB : Store := (identifyPost storeA 2 (some "b@x.com") (some "222") true).1

/-- Third request: (a@x.com, 222) — cluster A's email with cluster B's
phone, the spec's merge event. -/
def mergedStore : Store := (identifyPost storeAB 3 (some "a@x.com") (some "222") true).1

def cA : Contact := ⟨1, some "a@x.com", some "111", none, "primary", 1, 1, none⟩
def cB : Contact := ⟨2, some "b@x.com", some "222", none, "primary", 2, 2, none⟩
def cAB : Contact := ⟨3, some "a@x.com", some "222", some 1, "secondary", 3, 3, none⟩

theorem storeA_eq : storeA = [cA] := rfl

theorem mergedStore_eq : mergedStore = [cA, cB, cAB] := rfl

/-- Alternative second request: (b@x.com, 111) joins cluster A as a
secondary. -/
def storeChain : Store := (identifyPost storeA 2 (some "b@x.com") (some "111") true).1

def cX : Contact := ⟨2, some "b@x.com", some "111", some 1, "secondary", 2, 2, none⟩

theorem storeChain_eq : storeChain = [cA, cX] := rfl

/-- Third request on the chain: (b@x.com, 222) matches only the secondary
row 2. -/
def storeChain3 : Store := (identifyPost storeChain 3 (some "b@x.com") (some "222") true).1

def cY : Contact := ⟨3, some "b@x.com", some "222", some 2, "secondary", 3, 3, none⟩

theorem storeChain3_eq : storeChain3 = [cA, cX, cY] := rfl

/-! ### The claims -/

/-- Claim C1: the spec's merge event — a submission touching two distinct
clusters must keep the older primary and rewrite the newer one to a
secondary linked to it, repointing its children.  The code does no such
rewrite: after (a@x.com, 111), (b@x.com, 222) and then the merging
submission (a@x.com, 222), both original rows still stand as untouched
primaries with `linked_id = none`; the code only inserted a third row. -/
theorem claim_C1_merge_not_implemented :
    mergedStore = [cA, cB, cAB] ∧
    cB.link_precedence = "primary" ∧ cB.linked_id = none ∧
    cA.link_precedence = "primary" ∧ cA.linked_id = none :=
  ⟨mergedStore_eq, rfl, rfl, rfl, rfl⟩

/-- Claim C2: the one-primary-per-cluster invariant.  After the merge trace,
rows 1 and 2 are connected through row 3 (shared email, shared phone), yet
both still carry `link_precedence = "primary"`: the stored state the code
produces violates the invariant. -/
theorem claim_C2_invariant_violated : ¬ onePrimaryPerCluster mergedStore := by
  intro hinv
  have hmemA : cA ∈ mergedStore := by rw [mergedStore_eq]; simp
  have hmemB : cB ∈ mergedStore := by rw [mergedStore_eq]; simp
  have hmemAB : cAB ∈ mergedStore := by rw [mergedStore_eq]; simp
  have hchain : sameCluster mergedStore cA cB :=
    Relation.ReflTransGen.head ⟨hmemA, hmemAB, by decide⟩
      (Relation.ReflTransGen.single ⟨hmemAB, hmemB, by decide⟩)
  exact absurd (hinv cA hmemA cB hmemB hchain rfl rfl) (by decide)

/-- Claim C3 counterexample: the claim says a submission all of whose
non-empty fields equal an existing contact's fields is a repeat and causes
no write.  Submitting (a@x.com, none) against the single row
(a@x.com, 111): row 1 is an exact-pair match in the spec's sense, yet the
code writes a new secondary row (its check also compares the absent phone
against row 1's non-null phone). -/
theorem claim_C3_counterexample :
    specExactPair (some "a@x.com") none cA = true ∧
    (identifyPost [cA] 2 (some "a@x.com") none true).1 =
      [cA, ⟨2, some "a@x.com", none, some 1, "secondary", 2, 2, none⟩] :=
  ⟨rfl, rfl⟩

/-- Claim C5 counterexample: after (a@x.com, 111) and (b@x.com, 111), row 2
is a secondary of row 1.  Submitting (b@x.com, 222) matches only row 2, and
the response names primaryContactId = 2 — a row whose precedence is
"secondary", and not the cluster's oldest member (row 1). -/
theorem claim_C5_counterexample :
    (identifyPost storeChain 3 (some "b@x.com") (some "222") true).1 = [cA, cX, cY] ∧
    (identifyPost storeChain 3 (some "b@x.com") (some "222") true).2 =
      .ok ⟨2, ["b@x.com"], ["111", "222"], [3]⟩ ∧
    cX.id = 2 ∧ cX.link_precedence = "secondary" ∧ cA.id ≠ 2 ∧ cY.id ≠ 2 :=
  ⟨rfl, rfl, rfl, rfl, by decide, by decide⟩

/-- Claim C4 counterexample: in the same request, row 1 belongs to the
response's cluster (it is connected to row 2, whose id the response names as
primary) and carries email a@x.com, yet the response's emails list is just
["b@x.com"]: the response is built only from the rows matching the query,
not from the whole cluster. -/
theorem claim_C4_counterexample :
    (identifyPost storeChain 3 (some "b@x.com") (some "222") true).2 =
      .ok ⟨2, ["b@x.com"], ["111", "222"], [3]⟩ ∧
    storeChain3 = [cA, cX, cY] ∧
    sameCluster storeChain3 cA cX ∧
    cA.email = some "a@x.com" ∧
    "a@x.com" ∉ ["b@x.com"] := by
  refine ⟨rfl, rfl, ?_, rfl, by decide⟩
  refine Relation.ReflTransGen.single ⟨?_, ?_, by decide⟩
  · rw [storeChain3_eq]; simp
  · rw [storeChain3_eq]; simp

/-- Claim C7: a call whose query finds no matching row inserts exactly one
new row, a primary with `linked_id = none`, and answers with that row's id,
its (at most one) email and phone, and no secondaries. -/
theorem claim_C7_no_match (s : Store) (now : Nat) (e p : Option String)
    (hm : existingContacts s e p = []) (hv : ¬(e = none ∧ p = none)) :
    identifyPost s now e p true =
      (s ++ [⟨nextId s, e, p, none, "primary", now, now, none⟩],
       .ok ⟨nextId s, e.toList, p.toList, []⟩) := by
  unfold identifyPost
  rw [if_neg hv]
  exact identifyF_noMatch s now e p hm

theorem claim_C7_no_match_witness :
    identifyPost [] 1 (some "a@x.com") (some "111") true =
      ([] ++ [⟨nextId [], some "a@x.com", some "111", none, "primary", 1, 1, none⟩],
       .ok ⟨nextId [], (some "a@x.com").toList, (some "111").toList, []⟩) :=
  claim_C7_no_match [] 1 (some "a@x.com") (some "111") rfl (by decide)

/-- Claim C8: a submission with both fields empty fails pydantic validation
before any database session exists; the caller gets the validation error and
the stored state is exactly the state before the call. -/
theorem claim_C8_validation (s : Store) (now : Nat) (ok : Bool) :
    identifyPost s now none none ok =
      (s, .error (.validation "At least one of email or phone_number must be provided.")) :=
  rfl

/-- Claim C9: if the call reaches a write (no match, or matched but not a
repeat) and `session.commit()` fails, the exception handler rolls back: the
stored state is exactly the state before the call and the caller receives
the fixed, cause-free detail "Internal server error". -/
theorem claim_C9_store_error (s : Store) (now : Nat) (e p : Option String)
    (hv : ¬(e = none ∧ p = none))
    (hw : existingContacts s e p = [] ∨ isRepeat e p (existingContacts s e p) = false) :
    identifyPost s now e p false = (s, .error (.internal "Internal server error")) := by
  unfold identifyPost
  rw [if_neg hv]
  exact identifyF_commitFail s now e p hw

theorem claim_C9_store_error_witness :
    identifyPost [] 1 (some "a@x.com") none false =
      ([], .error (.internal "Internal server error")) :=
  claim_C9_store_error [] 1 (some "a@x.com") none (by decide) (Or.inl rfl)

/-- Claim C10: every call leaves every pre-existing row untouched — in every
execution path the resulting table is the old table with zero or one rows
appended; the code never updates a row. -/
theorem claim_C10_insert_only (s : Store) (now : Nat) (e p : Option String) (ok : Bool) :
    ∃ tail, (identifyPost s now e p ok).1 = s ++ tail := by
  unfold identifyPost
  by_cases hv : e = none ∧ p = none
  · rw [if_pos hv]; exact ⟨[], by simp⟩
  · rw [if_neg hv]
    cases hm : existingContacts s e p with
    | nil =>
      cases ok with
      | true => exact ⟨_, by rw [identifyF_noMatch s now e p hm]⟩
      | false => exact ⟨[], by rw [identifyF_commitFail s now e p (Or.inl hm)]; simp⟩
    | cons h t =>
      cases hr : isRepeat e p (h :: t) with
      | true => exact ⟨[], by rw [identifyF_repeat s now e p _ h t hm hr]; simp⟩
      | false =>
        cases ok with
        | true => exact ⟨_, by rw [identifyF_create s now e p h t hm hr]⟩
        | false =>
          have hw : existingContacts s e p = [] ∨
              isRepeat e p (existingContacts s e p) = false := Or.inr (by rw [hm]; exact hr)
          exact ⟨[], by rw [identifyF_commitFail s now e p hw]; simp⟩

/-- Claim C3 (amended): for a call with at least one matched row, a new row
is created iff no MATCHED row equals the submission on BOTH fields under
full equality — an absent submitted field matches only an absent stored
field, so a submission that omits a field an existing exact-email/phone row
has filled is NOT treated as a repeat.  When created, the row is a secondary
linked to the oldest matched row (not necessarily a cluster primary). -/
theorem claim_C3_full_pair_equality (s : Store) (now : Nat) (e p : Option String)
    (h : Contact) (t : List Contact)
    (hm : existingContacts s e p = h :: t) (hv : ¬(e = none ∧ p = none)) :
    ((identifyPost s now e p true).1 ≠ s ↔
      isRepeat e p (existingContacts s e p) = false) ∧
    (isRepeat e p (existingContacts s e p) = false →
      (identifyPost s now e p true).1 =
        s ++ [⟨nextId s, e, p, some (minByCreatedAt h t).id, "secondary", now, now, none⟩]) := by
  rw [hm]
  unfold identifyPost
  rw [if_neg hv]
  cases hr : isRepeat e p (h :: t) with
  | true =>
    rw [identifyF_repeat s now e p true h t hm hr]
    simp
  | false =>
    rw [identifyF_create s now e p h t hm hr]
    have hne : s ++ [(⟨nextId s, e, p, some (minByCreatedAt h t).id,
        "secondary", now, now, none⟩ : Contact)] ≠ s := by
      intro hEq
      have := congrArg List.length hEq
      simp at this
    constructor
    · simp [hne]
    · intro
      rfl

theorem claim_C3_full_pair_equality_witness :
    ((identifyPost [cA] 5 (some "b@x.com") (some "111") true).1 ≠ [cA] ↔
      isRepeat (some "b@x.com") (some "111")
        (existingContacts [cA] (some "b@x.com") (some "111")) = false) ∧
    (isRepeat (some "b@x.com") (some "111")
        (existingContacts [cA] (some "b@x.com") (some "111")) = false →
      (identifyPost [cA] 5 (some "b@x.com") (some "111") true).1 =
        [cA] ++ [⟨nextId [cA], some "b@x.com", some "111",
          some (minByCreatedAt cA []).id, "secondary", 5, 5, none⟩]) :=
  claim_C3_full_pair_equality [cA] 5 (some "b@x.com") (some "111") cA [] rfl (by decide)

/-- Claim C5 (amended): for a call with at least one matched row, the
response's primaryContactId is the id of an oldest row among the rows the
query matched (first minimal `created_at` in table order) — which need not
carry precedence "primary" and need not be the oldest member of the
cluster. -/
theorem claim_C5_oldest_matched (s : Store) (now : Nat) (e p : Option String)
    (h : Contact) (t : List Contact)
    (hm : existingContacts s e p = h :: t) (hv : ¬(e = none ∧ p = none)) :
    ∃ c v, (identifyPost s now e p true).2 = Except.ok v ∧
      c ∈ existingContacts s e p ∧
      (∀ d ∈ existingContacts s e p, c.created_at ≤ d.created_at) ∧
      v.primaryContactId = c.id := by
  unfold identifyPost
  rw [if_neg hv]
  refine ⟨minByCreatedAt h t, ?_⟩
  cases hr : isRepeat e p (h :: t) with
  | true =>
    refine ⟨mkView (minByCreatedAt h t)
      ((h :: t).filter (fun c => c.id ≠ (minByCreatedAt h t).id)), ?_, ?_, ?_, rfl⟩
    · rw [identifyF_repeat s now e p true h t hm hr]
    · rw [hm]; exact minByCreatedAt_mem h t
    · rw [hm]; exact minByCreatedAt_le h t
  | false =>
    refine ⟨mkView (minByCreatedAt h t)
      ((h :: t).filter (fun c => c.id ≠ (minByCreatedAt h t).id) ++
        [⟨nextId s, e, p, some (minByCreatedAt h t).id, "secondary", now, now, none⟩]),
      ?_, ?_, ?_, rfl⟩
    · rw [identifyF_create s now e p h t hm hr]
    · rw [hm]; exact minByCreatedAt_mem h t
    · rw [hm]; exact minByCreatedAt_le h t

theorem claim_C5_oldest_matched_witness :
    ∃ c v, (identifyPost [cA] 5 (some "b@x.com") (some "111") true).2 = Except.ok v ∧
      c ∈ existingContacts [cA] (some "b@x.com") (some "111") ∧
      (∀ d ∈ existingContacts [cA] (some "b@x.com") (some "111"),
        c.created_at ≤ d.created_at) ∧
      v.primaryContactId = c.id :=
  claim_C5_oldest_matched [cA] 5 (some "b@x.com") (some "111") cA [] rfl (by decide)

/-! ### Response shape lemmas for the amended C4 -/

theorem mem_dedupKeepFirst_filterMap (f : Contact → Option String)
    (l : List Contact) (x : String) :
    x ∈ dedupKeepFirst (l.filterMap f) ↔ ∃ c ∈ l, f c = some x := by
  rw [mem_dedupKeepFirst]
  simp [List.mem_filterMap]

theorem head_dedupKeepFirst_filterMap (f : Contact → Option String)
    (a : Contact) (l : List Contact) (x : String) (hx : f a = some x) :
    (dedupKeepFirst ((a :: l).filterMap f)).head? = some x := by
  rw [show List.filterMap f (a :: l) = x :: List.filterMap f l from by
    simp [List.filterMap_cons, hx]]
  rw [dedupKeepFirst, dedupSeen]
  simp

/-- Ascending row ids make `id` injective on a list. -/
theorem eq_of_id_eq (l : List Contact) (hnd : l.Pairwise (fun a b => a.id < b.id))
    (c d : Contact) (hc : c ∈ l) (hd : d ∈ l) (hid : c.id = d.id) : c = d := by
  induction l with
  | nil => cases hc
  | cons x xs ih =>
    rcases List.pairwise_cons.mp hnd with ⟨hx, hxs⟩
    rcases List.mem_cons.mp hc with hc1 | hc1 <;> rcases List.mem_cons.mp hd with hd1 | hd1
    · rw [hc1, hd1]
    · subst hc1; exact absurd hid (Nat.ne_of_lt (hx d hd1))
    · subst hd1; exact absurd hid.symm (Nat.ne_of_lt (hx c hc1))
    · exact ih hxs hc1 hd1

/-- The matched rows are exactly the chosen oldest row plus the rows kept by
the `c.id != primary_contact.id` filter (line 87), provided ids are
distinct. -/
theorem mem_minFilter_iff (h : Contact) (t : List Contact)
    (hnd : (h :: t).Pairwise (fun a b => a.id < b.id)) (c : Contact) :
    c ∈ minByCreatedAt h t :: (h :: t).filter (fun d => d.id ≠ (minByCreatedAt h t).id) ↔
      c ∈ h :: t := by
  constructor
  · intro hc
    rcases List.mem_cons.mp hc with h1 | h1
    · rw [h1]; exact minByCreatedAt_mem h t
    · exact List.mem_of_mem_filter h1
  · intro hc
    by_cases hid : c.id = (minByCreatedAt h t).id
    · have hce : c = minByCreatedAt h t :=
        eq_of_id_eq (h :: t) hnd c _ hc (minByCreatedAt_mem h t) hid
      rw [hce]; exact List.mem_cons_self _ _
    · exact List.mem_cons_of_mem _ (List.mem_filter.mpr ⟨hc, by simpa using hid⟩)

/-- Transport of the id list through a membership characterisation. -/
theorem map_id_mem_iff (L M : List Contact) (pid : Nat)
    (hB : ∀ c, c ∈ L ↔ c ∈ M ∧ c.id ≠ pid) (i : Nat) :
    i ∈ L.map (fun c => c.id) ↔ ∃ c ∈ M, c.id = i ∧ c.id ≠ pid := by
  rw [List.mem_map]
  constructor
  · rintro ⟨c, hc, rfl⟩
    rcases (hB c).mp hc with ⟨hcM, hne⟩
    exact ⟨c, hcM, rfl, hne⟩
  · rintro ⟨c, hcM, rfl, hne⟩
    exact ⟨c, (hB c).mpr ⟨hcM, hne⟩, rfl⟩

/-- Claim C4 (amended): for a call with at least one matched row (and a
well-formed table: ids strictly ascending), the response is assembled from
the rows MATCHING THE QUERY (which, after the call, include the freshly
inserted row if one was created), not from the whole cluster:
secondaryContactIds is the strictly ascending list of the matched rows' ids
other than the chosen oldest row's; emails (resp. phoneNumbers) is
duplicate-free, contains exactly the non-null emails (resp. phones) of those
matched rows, and starts with the chosen oldest row's email (resp. phone)
when it has one.  (Python's set order is modelled as first-occurrence
order.) -/
theorem claim_C4_matched_rows_only (s : Store) (now : Nat) (e p : Option String)
    (h : Contact) (t : List Contact)
    (hm : existingContacts s e p = h :: t) (hv : ¬(e = none ∧ p = none))
    (hs : s.Pairwise (fun a b => a.id < b.id)) :
    ∃ v, (identifyPost s now e p true).2 = Except.ok v ∧
      List.Pairwise (· < ·) v.secondaryContactIds ∧
      (∀ i, i ∈ v.secondaryContactIds ↔
        ∃ c ∈ existingContacts (identifyPost s now e p true).1 e p,
          c.id = i ∧ c.id ≠ (minByCreatedAt h t).id) ∧
      v.emails.Nodup ∧
      (∀ x, x ∈ v.emails ↔
        ∃ c ∈ existingContacts (identifyPost s now e p true).1 e p, c.email = some x) ∧
      (∀ x, (minByCreatedAt h t).email = some x → v.emails.head? = some x) ∧
      v.phoneNumbers.Nodup ∧
      (∀ x, x ∈ v.phoneNumbers ↔
        ∃ c ∈ existingContacts (identifyPost s now e p true).1 e p,
          c.phone_number = some x) ∧
      (∀ x, (minByCreatedAt h t).phone_number = some x →
        v.phoneNumbers.head? = some x) := by
  have hm2 : List.filter (matchesQuery e p) s = h :: t := hm
  have hnd : (h :: t).Pairwise (fun a b => a.id < b.id) := by
    rw [← hm2]; exact List.Pairwise.sublist (List.filter_sublist s) hs
  have hprimMem : minByCreatedAt h t ∈ h :: t := minByCreatedAt_mem h t
  have hprimS : minByCreatedAt h t ∈ s := by
    rw [← hm2] at hprimMem
    exact List.mem_of_mem_filter hprimMem
  have hsub : ∀ c, c ∈ h :: t → c ∈ s := by
    intro c hc
    rw [← hm2] at hc
    exact List.mem_of_mem_filter hc
  unfold identifyPost
  rw [if_neg hv]
  cases hr : isRepeat e p (h :: t) with
  | true =>
    rw [identifyF_repeat s now e p true h t hm hr]
    refine ⟨_, rfl, ?_, ?_, dedupKeepFirst_nodup _, ?_, ?_, dedupKeepFirst_nodup _, ?_, ?_⟩
    · exact List.pairwise_map.mpr
        (List.Pairwise.sublist (List.filter_sublist _) hnd)
    · intro i
      rw [hm]
      refine map_id_mem_iff _ _ _ (fun c => ?_) i
      simp [List.mem_filter]
    · intro x
      rw [hm]
      simp only [mkView]
      rw [mem_dedupKeepFirst_filterMap]
      exact exists_congr fun c =>
        and_congr_left' (mem_minFilter_iff h t hnd c)
    · intro x hx
      exact head_dedupKeepFirst_filterMap _ _ _ x hx
    · intro x
      rw [hm]
      simp only [mkView]
      rw [mem_dedupKeepFirst_filterMap]
      exact exists_congr fun c =>
        and_congr_left' (mem_minFilter_iff h t hnd c)
    · intro x hx
      exact head_dedupKeepFirst_filterMap _ _ _ x hx
  | false =>
    rw [identifyF_create s now e p h t hm hr]
    have hMnew : existingContacts
        (s ++ [⟨nextId s, e, p, some (minByCreatedAt h t).id, "secondary", now, now, none⟩])
        e p = (h :: t) ++
          [⟨nextId s, e, p, some (minByCreatedAt h t).id, "secondary", now, now, none⟩] := by
      unfold existingContacts
      rw [List.filter_append, hm2]
      simp [matchesQuery_mk]
    have hprimNe : nextId s ≠ (minByCreatedAt h t).id :=
      (Nat.ne_of_lt (id_lt_nextId _ s hprimS)).symm
    have hbridge : ∀ c, c ∈ minByCreatedAt h t ::
        ((h :: t).filter (fun d => d.id ≠ (minByCreatedAt h t).id) ++
          [⟨nextId s, e, p, some (minByCreatedAt h t).id, "secondary", now, now, none⟩]) ↔
        c ∈ (h :: t) ++
          [⟨nextId s, e, p, some (minByCreatedAt h t).id, "secondary", now, now, none⟩] := by
      intro c
      have hb := mem_minFilter_iff h t hnd c
      rw [List.mem_cons] at hb
      simp only [List.mem_cons, List.mem_append, List.mem_singleton]
      constructor
      · rintro (h1 | h1 | h1)
        · exact Or.inl (List.mem_cons.mp (hb.mp (Or.inl h1)))
        · exact Or.inl (List.mem_cons.mp (hb.mp (Or.inr h1)))
        · exact Or.inr h1
      · rintro (h1 | h1)
        · rcases hb.mpr (List.mem_cons.mpr h1) with h2 | h2
          · exact Or.inl h2
          · exact Or.inr (Or.inl h2)
        · exact Or.inr (Or.inr h1)
    refine ⟨_, rfl, ?_, ?_, dedupKeepFirst_nodup _, ?_, ?_, dedupKeepFirst_nodup _, ?_, ?_⟩
    · simp only [mkView]
      rw [List.map_append]
      refine List.pairwise_append.mpr ⟨?_, ?_, ?_⟩
      · exact List.pairwise_map.mpr
          (List.Pairwise.sublist (List.filter_sublist _) hnd)
      · simp
      · intro a ha b hb
        rcases List.mem_map.mp ha with ⟨c, hc, rfl⟩
        simp only [List.map_cons, List.map_nil, List.mem_singleton] at hb
        subst hb
        exact id_lt_nextId c s (hsub c (List.mem_of_mem_filter hc))
    · intro i
      rw [hMnew]
      refine map_id_mem_iff _ _ _ (fun c => ?_) i
      simp only [List.mem_append, List.mem_filter, List.mem_singleton]
      constructor
      · rintro (⟨hc, hpred⟩ | rfl)
        · exact ⟨Or.inl hc, by simpa using hpred⟩
        · exact ⟨Or.inr rfl, hprimNe⟩
      · rintro ⟨hc | rfl, hne⟩
        · exact Or.inl ⟨hc, by simpa using hne⟩
        · exact Or.inr rfl
    · intro x
      rw [hMnew]
      simp only [mkView]
      rw [mem_dedupKeepFirst_filterMap]
      exact exists_congr fun c => and_congr_left' (hbridge c)
    · intro x hx
      exact head_dedupKeepFirst_filterMap _ _ _ x hx
    · intro x
      rw [hMnew]
      simp only [mkView]
      rw [mem_dedupKeepFirst_filterMap]
      exact exists_congr fun c => and_congr_left' (hbridge c)
    · intro x hx
      exact head_dedupKeepFirst_filterMap _ _ _ x hx

theorem claim_C4_matched_rows_only_witness :
    ∃ v, (identifyPost [cA] 5 (some "b@x.com") (some "111") true).2 = Except.ok v ∧
      List.Pairwise (· < ·) v.secondaryContactIds ∧
      (∀ i, i ∈ v.secondaryContactIds ↔
        ∃ c ∈ existingContacts (identifyPost [cA] 5 (some "b@x.com") (some "111") true).1
            (some "b@x.com") (some "111"),
          c.id = i ∧ c.id ≠ (minByCreatedAt cA []).id) ∧
      v.emails.Nodup ∧
      (∀ x, x ∈ v.emails ↔
        ∃ c ∈ existingContacts (identifyPost [cA] 5 (some "b@x.com") (some "111") true).1
            (some "b@x.com") (some "111"), c.email = some x) ∧
      (∀ x, (minByCreatedAt cA []).email = some x → v.emails.head? = some x) ∧
      v.phoneNumbers.Nodup ∧
      (∀ x, x ∈ v.phoneNumbers ↔
        ∃ c ∈ existingContacts (identifyPost [cA] 5 (some "b@x.com") (some "111") true).1
            (some "b@x.com") (some "111"), c.phone_number = some x) ∧
      (∀ x, (minByCreatedAt cA []).phone_number = some x →
        v.phoneNumbers.head? = some x) :=
  claim_C4_matched_rows_only [cA] 5 (some "b@x.com") (some "111") cA [] rfl (by decide)
    (by simp)

/-! ### Idempotence of resubmission (claim C6) -/

theorem identifyF_idem (s : Store) (now now2 : Nat) (e p : Option String)
    (hc : ∀ d ∈ s, d.created_at ≤ now) :
    identifyF ((identifyF s now e p true).1) now2 e p true =
      identifyF s now e p true := by
  cases hm : existingContacts s e p with
  | nil =>
    rw [identifyF_noMatch s now e p hm]
    have hm2 : existingContacts
        (s ++ [⟨nextId s, e, p, none, "primary", now, now, none⟩]) e p =
        [⟨nextId s, e, p, none, "primary", now, now, none⟩] := by
      unfold existingContacts at hm ⊢
      rw [List.filter_append, hm]
      simp [matchesQuery_mk]
    have hrep : isRepeat e p [⟨nextId s, e, p, none, "primary", now, now, none⟩] = true := by
      simp [isRepeat]
    rw [identifyF_repeat _ now2 e p true _ [] hm2 hrep]
    cases e <;> cases p <;>
      simp [mkView, minByCreatedAt, dedupKeepFirst, dedupSeen, Option.toList,
        List.filterMap_cons, List.filter]
  | cons h t =>
    have hsub : ∀ c ∈ h :: t, c ∈ s := by
      intro c hcm
      have hm2 : List.filter (matchesQuery e p) s = h :: t := hm
      rw [← hm2] at hcm
      exact List.mem_of_mem_filter hcm
    cases hr : isRepeat e p (h :: t) with
    | true =>
      rw [identifyF_repeat s now e p true h t hm hr]
      rw [identifyF_repeat s now2 e p true h t hm hr]
    | false =>
      rw [identifyF_create s now e p h t hm hr]
      have hm2 : existingContacts
          (s ++ [⟨nextId s, e, p, some (minByCreatedAt h t).id, "secondary", now, now, none⟩])
          e p = (h :: t) ++
            [⟨nextId s, e, p, some (minByCreatedAt h t).id, "secondary", now, now, none⟩] := by
        have hmf : List.filter (matchesQuery e p) s = h :: t := hm
        unfold existingContacts
        rw [List.filter_append, hmf]
        simp [matchesQuery_mk]
      have hrep2 : isRepeat e p ((h :: t) ++
          [⟨nextId s, e, p, some (minByCreatedAt h t).id, "secondary", now, now, none⟩]) =
          true := isRepeat_append_mk e p (h :: t) _ _ _ _ _ _
      rw [identifyF_repeat _ now2 e p true h
        (t ++ [(⟨nextId s, e, p, some (minByCreatedAt h t).id,
          "secondary", now, now, none⟩ : Contact)])
        hm2 hrep2]
      have hprimEq : minByCreatedAt h
          (t ++ [⟨nextId s, e, p, some (minByCreatedAt h t).id, "secondary", now, now, none⟩]) =
          minByCreatedAt h t := by
        rw [minByCreatedAt_append]
        rw [if_neg]
        exact not_lt.mpr (hc _ (hsub _ (minByCreatedAt_mem h t)))
      rw [hprimEq]
      have hidNe : decide ((nextId s : Nat) ≠ (minByCreatedAt h t).id) = true := by
        have hlt := id_lt_nextId _ s (hsub _ (minByCreatedAt_mem h t))
        exact decide_eq_true (Ne.symm (Nat.ne_of_lt hlt))
      have hfil : (h :: (t ++
          [⟨nextId s, e, p, some (minByCreatedAt h t).id, "secondary", now, now, none⟩])).filter
            (fun c => c.id ≠ (minByCreatedAt h t).id) =
          (h :: t).filter (fun c => c.id ≠ (minByCreatedAt h t).id) ++
            [⟨nextId s, e, p, some (minByCreatedAt h t).id, "secondary", now, now, none⟩] := by
        rw [show (h :: (t ++
            [⟨nextId s, e, p, some (minByCreatedAt h t).id, "secondary", now, now, none⟩])) =
          (h :: t) ++
            [⟨nextId s, e, p, some (minByCreatedAt h t).id, "secondary", now, now, none⟩]
          from rfl]
        rw [List.filter_append]
        simp only [List.filter, hidNe]
      rw [hfil]

/-- Claim C6: once a pair has been submitted, immediately resubmitting the
identical pair (no intervening submissions, timestamps nondecreasing)
writes no new row — the stored table is unchanged — and returns the
identical ClusterView; hence any number of resubmissions behave alike. -/
theorem claim_C6_idempotent (s : Store) (now now2 : Nat) (e p : Option String)
    (hv : ¬(e = none ∧ p = none)) (hc : ∀ d ∈ s, d.created_at ≤ now) :
    identifyPost ((identifyPost s now e p true).1) now2 e p true =
      identifyPost s now e p true := by
  have h1 : identifyPost s now e p true = identifyF s now e p true := by
    unfold identifyPost
    rw [if_neg hv]
  have h2 : identifyPost ((identifyF s now e p true).1) now2 e p true =
      identifyF ((identifyF s now e p true).1) now2 e p true := by
    unfold identifyPost
    rw [if_neg hv]
  rw [h1, h2]
  exact identifyF_idem s now now2 e p hc

theorem claim_C6_idempotent_witness :
    identifyPost ((identifyPost [cA] 5 (some "b@x.com") (some "111") true).1) 7
        (some "b@x.com") (some "111") true =
      identifyPost [cA] 5 (some "b@x.com") (some "111") true :=
  claim_C6_idempotent [cA] 5 7 (some "b@x.com") (some "111") (by decide) (by decide)
